import Mathlib

/-!
Shallow embedding of the TunSafe framing codec, the TCP/TLS bind's send
path, and the WireGuard connection-state supervisor of ProtonVPN's
wireguard-go fork (src/conn/tcp_tls_utils.go, src/conn/bind_std_tcp.go,
and the device-package state manager).

Bytes are modelled as `Nat` (with explicit `% 256` where Go truncates to
`uint8`), byte slices as `List Nat`, `uint64` counters as `Nat` with
explicit `% 2 ^ 64` at the points where Go's wrap-around arithmetic acts,
and `time.Time` / `time.Duration` as nanosecond counts in `Nat`.
-/

set_option maxRecDepth 20000

namespace WgTcp

/-- `var wgDataPrefix = []byte{4, 0, 0, 0}` -/
def wgDataPrefix : List Nat := [4, 0, 0, 0]

/-- `var wgDataHeaderSize = 16` -/
def wgDataHeaderSize : Nat := 16

/-- `var wgDataPrefixSize = 8` (WireGuard data header without counter) -/
def wgDataPrefixSize : Nat := 8

/-- `var tunSafeHeaderSize = 2` -/
def tunSafeHeaderSize : Nat := 2

/-- `var tunSafeNormalType = uint8(0b00)` -/
def tunSafeNormalType : Nat := 0b00

/-- `var tunSafeDataType = uint8(0b10)` -/
def tunSafeDataType : Nat := 0b10

/-- Wrap modulus of Go's `uint64`. -/
def U64 : Nat := 2 ^ 64

/-- The `TunSafeData` codec state (tcp_tls_utils.go). -/
structure TunSafeData where
  wgSendPrefix : List Nat
  wgSendCount : Nat
  wgRecvPrefix : List Nat
  wgRecvCount : Nat
deriving Repr, DecidableEq

/-- `NewTunSafeData`: zeroed counters, 8-byte zero prefixes
(`make([]byte, 8)` yields eight zero bytes). -/
def NewTunSafeData : TunSafeData :=
  { wgSendPrefix := List.replicate 8 0
    wgSendCount := 0
    wgRecvPrefix := List.replicate 8 0
    wgRecvCount := 0 }

/-- Value of a little-endian byte list (`encoding/binary` LittleEndian read). -/
def leVal : List Nat → Nat
  | [] => 0
  | b :: bs => b + 256 * leVal bs

/-- `k`-byte little-endian encoding of `n`
(`encoding/binary` LittleEndian write of a `k`-byte integer). -/
def leBytes : Nat → Nat → List Nat
  | 0, _ => []
  | k + 1, n => n % 256 :: leBytes k (n / 256)

/-- `bytes.HasPrefix(l, p)`. -/
def goHasPrefix (l p : List Nat) : Bool :=
  l.take p.length == p

/-- Go `copy(dst, src)`: overwrite the first `min` bytes of `dst` with `src`,
keep the rest of `dst`. -/
def goCopy (dst src : List Nat) : List Nat :=
  src.take (min dst.length src.length) ++ dst.drop (min dst.length src.length)

/-- `parseTunSafeHeader(header)`: returns `(type, size)` with
`type = header[0] >> 6` and `size = (int(header[0])&0b00111111)<<8 | int(header[1])`. -/
def parseTunSafeHeader (b0 b1 : Nat) : Nat × Nat :=
  (b0 >>> 6, ((b0 &&& 0b00111111) <<< 8) ||| b1)

/-- `(tunSafe *TunSafeData) clear()`: zero both counters, keep prefixes. -/
def clear (t : TunSafeData) : TunSafeData :=
  { t with wgSendCount := 0, wgRecvCount := 0 }

/-- `writeWgHeader(wgPacket)`: copy `wgRecvPrefix ‖ wgRecvCount (LE u64)` into
the front of `wgPacket`. -/
def writeWgHeader (t : TunSafeData) (wgPacket : List Nat) : List Nat :=
  goCopy wgPacket (t.wgRecvPrefix ++ leBytes 8 t.wgRecvCount)

/-- `prepareWgPacket(tunSafeType, payloadSize)`: returns `(wgPacket, offset)`;
`none` models the `"StdNetBindTcp: unknown TunSafe type"` error. -/
def prepareWgPacket (t : TunSafeData) (tunSafeType payloadSize : Nat) :
    Option (List Nat × Nat) :=
  if tunSafeType = tunSafeNormalType then
    some (List.replicate payloadSize 0, 0)
  else if tunSafeType = tunSafeDataType then
    some (writeWgHeader t (List.replicate (payloadSize + wgDataHeaderSize) 0),
      wgDataHeaderSize)
  else
    none

/-- `onRecvPacket(tunSafeType, wgPacket)`: on a Normal frame carrying a
Data-tagged packet, learn `(wgRecvPrefix, wgRecvCount)` from its header;
then unconditionally increment `wgRecvCount` (a `uint64`, hence mod `2^64`). -/
def onRecvPacket (t : TunSafeData) (tunSafeType : Nat) (wgPacket : List Nat) :
    TunSafeData :=
  let t1 :=
    if tunSafeType = tunSafeNormalType ∧ goHasPrefix wgPacket wgDataPrefix then
      { t with
        wgRecvPrefix := goCopy t.wgRecvPrefix (wgPacket.take wgDataPrefixSize)
        wgRecvCount := leVal ((wgPacket.take wgDataHeaderSize).drop wgDataPrefixSize) }
    else t
  { t1 with wgRecvCount := (t1.wgRecvCount + 1) % U64 }

/-- `wgToTunSafeNormal(wgPacket)`: 2-byte header (`uint8(payloadSize >> 8)`,
`uint8(payloadSize & 0xff)`) followed by the whole packet. -/
def wgToTunSafeNormal (wgPacket : List Nat) : List Nat :=
  let payloadSize := wgPacket.length
  ((payloadSize >>> 8) % 256) :: (payloadSize &&& 0xff) :: wgPacket

/-- `wgToTunSafeData(wgPacket)`: 2-byte header (`uint8(0b10<<6 | payloadSize>>8)`,
`uint8(payloadSize & 0xff)`) followed by the packet without its 16-byte header. -/
def wgToTunSafeData (wgPacket : List Nat) : List Nat :=
  let payloadSize := wgPacket.length - wgDataHeaderSize
  (((0b10 <<< 6) ||| (payloadSize >>> 8)) % 256) :: (payloadSize &&& 0xff) ::
    wgPacket.drop wgDataHeaderSize

/-- `wgToTunSafe(wgPacket)`: the encoder. Returns the emitted frame and the
updated codec state (the Go method mutates `tunSafe`). -/
def wgToTunSafe (t : TunSafeData) (wgPacket : List Nat) : List Nat × TunSafeData :=
  let wgLen := wgPacket.length
  if wgLen < wgDataHeaderSize then
    (wgToTunSafeNormal wgPacket, t)
  else
    let wgPrefix := wgPacket.take wgDataPrefixSize
    let wgCount := leVal ((wgPacket.take wgDataHeaderSize).drop wgDataPrefixSize)
    if wgPrefix = t.wgSendPrefix ∧ wgCount = (t.wgSendCount + 1) % U64 then
      (wgToTunSafeData wgPacket, { t with wgSendCount := (t.wgSendCount + 1) % U64 })
    else
      if goHasPrefix wgPacket wgDataPrefix then
        (wgToTunSafeNormal wgPacket,
          { t with wgSendPrefix := wgPrefix, wgSendCount := wgCount })
      else
        (wgToTunSafeNormal wgPacket, t)

/-- Parsed type bits of a frame's first byte. -/
def frameType (frame : List Nat) : Nat :=
  frame.headD 0 >>> 6

/-- Parsed 14-bit length field of a frame's first two bytes. -/
def frameSize (frame : List Nat) : Nat :=
  (parseTunSafeHeader (frame.headD 0) ((frame.drop 1).headD 0)).2

/-- Codec part of `StdNetBindTcp.readNextPacket` on one whole frame: parse the
2-byte header, `prepareWgPacket`, fill `wgPacket[offset:]` with the payload
bytes read from the stream (`io.ReadFull` reads exactly `size` bytes).
Returns the frame type and the reconstructed WireGuard packet. -/
def decodeFrameFull (t : TunSafeData) (frame : List Nat) :
    Option (Nat × List Nat) :=
  match frame with
  | b0 :: b1 :: body =>
    let (ty, size) := parseTunSafeHeader b0 b1
    match prepareWgPacket t ty size with
    | some (wgPacket, offset) =>
      if body.length = size then some (ty, wgPacket.take offset ++ body) else none
    | none => none
  | _ => none

/-- The reconstructed packet of `decodeFrameFull`
(`prepareWgPacket` plus the payload copy, before `onRecvPacket`). -/
def decodeFrame (t : TunSafeData) (frame : List Nat) : Option (List Nat) :=
  (decodeFrameFull t frame).map (·.2)

/-- One full receive step of `readNextPacket`: decode, then `onRecvPacket`. -/
def recvFrame (t : TunSafeData) (frame : List Nat) : Option TunSafeData :=
  (decodeFrameFull t frame).map fun p => onRecvPacket t p.1 p.2

/-- Errors `StdNetBindTcp.Send` can return. -/
inductive SendErr
  | connErr
  | endpointMismatch
  | writeErr
deriving Repr, DecidableEq

/-- `StdNetBindTcp.Send` (bind_std_tcp.go): acquire the connection, check the
endpoint, frame `buff` through `wgToTunSafe` (mutating the codec state), then
write the frame to the stream. `connOk` models `getConn` succeeding,
`endpointMatch` the `endpoint != boundEndpoint` check, `writeOk` the result of
`conn.Write`. Returns the codec state after the call, the returned error, and
the bytes handed to the stream. A write error is reported (`onSocketError`,
`logError`) and returned, with no change to the codec state made after
`wgToTunSafe` ran. -/
def Send (ts : TunSafeData) (buff : List Nat)
    (connOk endpointMatch writeOk : Bool) :
    TunSafeData × Option SendErr × List Nat :=
  if ¬ connOk then (ts, some .connErr, [])
  else if ¬ endpointMatch then (ts, some .endpointMismatch, [])
  else
    let (tunSafePacket, ts') := wgToTunSafe ts buff
    (ts', if writeOk then none else some .writeErr, tunSafePacket)

end WgTcp

namespace WgSup

/-- `var initialRestartDelay = 4 * time.Second` (in nanoseconds). -/
def initialRestartDelay : Nat := 4 * 1000000000

/-- `var maxRestartDelay = 32 * time.Second` (in nanoseconds). -/
def maxRestartDelay : Nat := 32 * 1000000000

/-- `var resetRestartDelay = 10 * time.Minute` (in nanoseconds). -/
def resetRestartDelay : Nat := 600 * 1000000000

/-- `type WireGuardState int`, `iota` constants. -/
def WireGuardDisabled : Int := 0

def WireGuardConnecting : Int := 1

def WireGuardConnected : Int := 2

def WireGuardError : Int := 3

def WireGuardWaitingForNetwork : Int := 4

/-- `type HandshakeState` values consumed by the supervisor. -/
inductive HandshakeState
  | HandshakeInit
  | HandshakeSuccess
  | HandshakeFail
deriving Repr, DecidableEq

/-- The mutable fields of `WireGuardStateManager` that the event handlers
touch. `wasNetAvailable` models `wasNetAvailablePtr`: `none` before the first
network event; afterwards dereferencing the pointer reads the current
`isNetAvailable`, which between network events equals the last value set.
Times are nanosecond counts; `startedTimestamp = 0` models the zero `time.Time`
(`IsZero`). -/
structure ManagerState where
  isNetAvailable : Bool
  wasNetAvailable : Option Bool
  startedTimestamp : Nat
  lastRestart : Nat
  nextRestartDelay : Nat
  closed : Bool
  transmission : String
deriving Repr, DecidableEq

/-- Actions the event handlers perform on the outside world: a state
publication that actually reaches `stateChan`, or a device `Up`/`Down` call. -/
inductive Action
  | post (s : Int)
  | deviceUp
  | deviceDown
deriving Repr, DecidableEq

/-- `postState(state)`: the spawned goroutine sends on `stateChan` only when
`!man.closed && (man.isNetAvailable || state == WireGuardWaitingForNetwork)`. -/
def postState (m : ManagerState) (s : Int) : List Action :=
  if ¬ m.closed ∧ (m.isNetAvailable ∨ s = WireGuardWaitingForNetwork) then
    [Action.post s]
  else []

/-- `setActive(device, activate)`. `upOk`/`downOk` model the device call
results; a failure publishes `WireGuardError`. -/
def setActive (m : ManagerState) (activate upOk downOk : Bool) : List Action :=
  if activate then
    postState m WireGuardConnecting ++ [Action.deviceUp] ++
      (if upOk then [] else postState m WireGuardError)
  else
    [Action.deviceDown] ++ (if downOk then [] else postState m WireGuardError)

/-- `shouldRestart()`: permitted iff `now` is strictly after
`lastRestart + nextRestartDelay`; on permission, reset the delay to
`initialRestartDelay` when `now` is strictly after
`lastRestart + resetRestartDelay`, otherwise double it capping at
`maxRestartDelay`; then stamp `lastRestart := now`. -/
def shouldRestart (m : ManagerState) (now : Nat) : Bool × ManagerState :=
  let restart := m.lastRestart + m.nextRestartDelay < now
  if restart then
    let d :=
      if m.lastRestart + resetRestartDelay < now then initialRestartDelay
      else min (2 * m.nextRestartDelay) maxRestartDelay
    (true, { m with nextRestartDelay := d, lastRestart := now })
  else
    (false, m)

/-- `maybeRestart(device)`: suppressed on UDP; otherwise, when `shouldRestart`
permits, publish `Connecting`, call `device.Down()`, and `device.Up()` unless
closed. -/
def maybeRestart (m : ManagerState) (now : Nat) : ManagerState × List Action :=
  if m.transmission = "udp" then (m, [])
  else
    let (restart, m') := shouldRestart m now
    if restart then
      (m', postState m' WireGuardConnecting ++ [Action.deviceDown] ++
        (if ¬ m'.closed then [Action.deviceUp] else []))
    else (m', [])

/-- `strings.Contains(s, sub)` on character lists. -/
def goContains (s sub : List Char) : Bool :=
  s.tails.any fun tail => sub.isPrefixOf tail

/-- `handleSocketErr(device, err)`: restart only on errors whose message
contains `"broken pipe"` or `"connection reset by peer"`. `none` models a nil
error. -/
def handleSocketErr (m : ManagerState) (err : Option (List Char)) (now : Nat) :
    ManagerState × List Action :=
  match err with
  | some errStr =>
    if goContains errStr "broken pipe".toList ∨
        goContains errStr "connection reset by peer".toList then
      maybeRestart m now
    else (m, [])
  | none => (m, [])

/-- `handleHandshakeState(device, state)`. -/
def handleHandshakeState (m : ManagerState) (st : HandshakeState) (now : Nat) :
    ManagerState × List Action :=
  match st with
  | .HandshakeInit => (m, postState m WireGuardConnecting)
  | .HandshakeSuccess => (m, postState m WireGuardConnected)
  | .HandshakeFail =>
    let acts := postState m WireGuardError
    let (m', acts') := maybeRestart m now
    (m', acts ++ acts')

/-- `onNetworkAvailabilityChange(device, wasAvailable, available)`, with the
`if / else if` chain of the source. -/
def onNetworkAvailabilityChange (m : ManagerState) (available : Bool)
    (now : Nat) (upOk downOk : Bool) : ManagerState × List Action :=
  let acts0 := if ¬ available then postState m WireGuardWaitingForNetwork else []
  if available ∧ m.wasNetAvailable = none then
    ({ m with startedTimestamp := now }, acts0 ++ setActive m true upOk downOk)
  else if available ∧ m.wasNetAvailable = some true ∧
      m.startedTimestamp ≠ 0 ∧ m.startedTimestamp + 5 * 1000000000 < now then
    let (m', acts) := maybeRestart m now
    (m', acts0 ++ acts)
  else if available ∧ m.wasNetAvailable = some false then
    (m, acts0 ++ setActive m true upOk downOk)
  else if ¬ available ∧ m.wasNetAvailable = some true then
    (m, acts0 ++ setActive m false upOk downOk)
  else
    (m, acts0)

/-- Events multiplexed by `handlerLoop` (besides `closeChan`). -/
inductive Event
  | netAvailable (b : Bool)
  | socketErr (err : Option (List Char))
  | handshake (st : HandshakeState)

/-- One iteration of `handlerLoop`'s `select`: socket-error and handshake
events are handled only when `man.isNetAvailable`; a network event runs
`onNetworkAvailabilityChange` with the old value, then updates
`isNetAvailable` and points `wasNetAvailablePtr` at it. -/
def handlerStep (m : ManagerState) (ev : Event) (now : Nat)
    (upOk downOk : Bool) : ManagerState × List Action :=
  match ev with
  | .netAvailable b =>
    let (m', acts) := onNetworkAvailabilityChange m b now upOk downOk
    ({ m' with isNetAvailable := b, wasNetAvailable := some b }, acts)
  | .socketErr e =>
    if m.isNetAvailable then handleSocketErr m e now else (m, [])
  | .handshake h =>
    if m.isNetAvailable then handleHandshakeState m h now else (m, [])

/-- The buffered `stateChan` (`chan WireGuardState`): pending values plus the
channel's closed flag. -/
structure StateChan where
  buf : List Int
  isClosed : Bool
deriving Repr, DecidableEq

/-- `GetState()`: `state, ok := <-man.stateChan; if !ok { return -1 }`.
A Go receive on a closed channel drains buffered values first. `none` models
blocking (open channel, nothing buffered). -/
def GetState (c : StateChan) : Option (Int × StateChan) :=
  match c.buf with
  | s :: rest => some (s, { c with buf := rest })
  | [] => if c.isClosed then some (-1, c) else none

/-- The channel effect of `Close()`: `man.stateChan <- WireGuardDisabled;
close(man.stateChan)`. -/
def CloseStateChan (c : StateChan) : StateChan :=
  { buf := c.buf ++ [WireGuardDisabled], isClosed := true }

end WgSup

namespace WgTcp

theorem leBytes_length (k n : Nat) : (leBytes k n).length = k := by
  induction k generalizing n with
  | zero => rfl
  | succ k ih => simp [leBytes, ih]

theorem leBytes_leVal (bs : List Nat) (hb : ∀ b ∈ bs, b < 256) :
    leBytes bs.length (leVal bs) = bs := by
  induction bs with
  | nil => rfl
  | cons b rest ih =>
    have hbb : b < 256 := hb b (by simp)
    have hrest : ∀ x ∈ rest, x < 256 := fun x hx => hb x (by simp [hx])
    simp only [List.length_cons, leBytes, leVal]
    have h1 : (b + 256 * leVal rest) % 256 = b := by omega
    have h2 : (b + 256 * leVal rest) / 256 = leVal rest := by omega
    rw [h1, h2, ih hrest]

theorem shiftRight8_lt (n : Nat) (h : n ≤ 16383) : n >>> 8 < 64 := by
  rw [Nat.shiftRight_eq_div_pow]
  have h8 : (2 : Nat) ^ 8 = 256 := by norm_num
  rw [h8]; omega

theorem and255_eq_mod (n : Nat) : n &&& 255 = n % 256 := by
  have := Nat.and_pow_two_sub_one_eq_mod n 8
  norm_num at this; omega

theorem headerBits (x : Nat) (hx : x < 64) :
    (x % 256) >>> 6 = 0 ∧ x &&& 63 = x ∧ (128 ||| x) % 256 = 128 + x ∧
      (128 + x) >>> 6 = 2 ∧ (128 + x) &&& 63 = x :=
  (by decide :
    ∀ x : Nat, x < 64 → (x % 256) >>> 6 = 0 ∧ x &&& 63 = x ∧
      (128 ||| x) % 256 = 128 + x ∧ (128 + x) >>> 6 = 2 ∧
      (128 + x) &&& 63 = x) x hx

theorem shiftLeft8_lor (x y : Nat) (hx : x < 64) (hy : y < 256) :
    (x <<< 8) ||| y = 256 * x + y :=
  (by decide :
    ∀ x : Nat, x < 64 → ∀ y : Nat, y < 256 →
      (x <<< 8) ||| y = 256 * x + y) x hx y hy

theorem shiftRight8_eq (n : Nat) : n >>> 8 = n / 256 := by
  rw [Nat.shiftRight_eq_div_pow]

/-- Header round trip, Normal: parsing the two header bytes that
`wgToTunSafeNormal` writes for a payload size `n ≤ 16383` recovers
`(tunSafeNormalType, n)`. -/
theorem parse_normal_header (n : Nat) (h : n ≤ 16383) :
    parseTunSafeHeader ((n >>> 8) % 256) (n &&& 0xff) = (tunSafeNormalType, n) := by
  have hx := shiftRight8_lt n h
  have hbits := headerBits (n >>> 8) hx
  have hmod : (n >>> 8) % 256 = n >>> 8 := Nat.mod_eq_of_lt (by omega)
  have hty : ((n >>> 8) % 256) >>> 6 = 0 := hbits.1
  have hsz : ((((n >>> 8) % 256) &&& 63) <<< 8) ||| (n &&& 0xff) = n := by
    rw [hmod, hbits.2.1, and255_eq_mod,
      shiftLeft8_lor _ _ hx (Nat.mod_lt _ (by norm_num)), shiftRight8_eq]
    omega
  simp [parseTunSafeHeader, tunSafeNormalType, hty, hsz]

/-- Header round trip, Data-elided: parsing the two header bytes that
`wgToTunSafeData` writes for a payload size `n ≤ 16383` recovers
`(tunSafeDataType, n)`. -/
theorem parse_data_header (n : Nat) (h : n ≤ 16383) :
    parseTunSafeHeader (((0b10 <<< 6) ||| (n >>> 8)) % 256) (n &&& 0xff) =
      (tunSafeDataType, n) := by
  have hx := shiftRight8_lt n h
  have hbits := headerBits (n >>> 8) hx
  have hty : ((128 ||| (n >>> 8)) % 256) >>> 6 = 2 := by
    rw [hbits.2.2.1]; exact hbits.2.2.2.1
  have hsz : ((((128 ||| (n >>> 8)) % 256) &&& 63) <<< 8) ||| (n &&& 0xff) = n := by
    rw [hbits.2.2.1, hbits.2.2.2.2, and255_eq_mod,
      shiftLeft8_lor _ _ hx (Nat.mod_lt _ (by norm_num)), shiftRight8_eq]
    omega
  simp [parseTunSafeHeader, tunSafeDataType, hty, hsz]

/-- The exact condition under which `wgToTunSafe` takes its elision branch:
length at least 16, 8-byte packet head equal to `wgSendPrefix`, and counter
field equal to `wgSendCount + 1` (as `uint64`). -/
def elideCond (t : TunSafeData) (P : List Nat) : Prop :=
  wgDataHeaderSize ≤ P.length ∧
    P.take wgDataPrefixSize = t.wgSendPrefix ∧
    leVal ((P.take wgDataHeaderSize).drop wgDataPrefixSize) =
      (t.wgSendCount + 1) % U64

instance (t : TunSafeData) (P : List Nat) : Decidable (elideCond t P) := by
  unfold elideCond; exact inferInstance

/-- The exact condition under which `wgToTunSafe` re-primes the send state
(the Normal branch for a long-enough Data-tagged packet). -/
def primeCond (t : TunSafeData) (P : List Nat) : Prop :=
  wgDataHeaderSize ≤ P.length ∧ ¬ elideCond t P ∧
    goHasPrefix P wgDataPrefix = true

instance (t : TunSafeData) (P : List Nat) : Decidable (primeCond t P) := by
  unfold primeCond; exact inferInstance

/-- Branch characterisation of the encoder. -/
theorem wgToTunSafe_eq (t : TunSafeData) (P : List Nat) :
    wgToTunSafe t P =
      if elideCond t P then
        (wgToTunSafeData P, { t with wgSendCount := (t.wgSendCount + 1) % U64 })
      else if primeCond t P then
        (wgToTunSafeNormal P,
          { t with
            wgSendPrefix := P.take wgDataPrefixSize
            wgSendCount := leVal ((P.take wgDataHeaderSize).drop wgDataPrefixSize) })
      else (wgToTunSafeNormal P, t) := by
  unfold wgToTunSafe elideCond primeCond
  by_cases h1 : P.length < wgDataHeaderSize
  · have h1' : ¬ wgDataHeaderSize ≤ P.length := by omega
    simp [h1, h1', elideCond]
  · have h1' : wgDataHeaderSize ≤ P.length := by omega
    by_cases h2 : P.take wgDataPrefixSize = t.wgSendPrefix ∧
        leVal ((P.take wgDataHeaderSize).drop wgDataPrefixSize) =
          (t.wgSendCount + 1) % U64
    · simp [h1, h1', h2, elideCond]
    · by_cases h3 : goHasPrefix P wgDataPrefix = true
      · simp [h1, h1', h2, h3, elideCond]
      · simp [h1, h1', h2, h3, elideCond]

/-- The header bytes written by `wgToTunSafeNormal` parse back to the Normal
type and the payload length, for payloads within the 14-bit field. -/
theorem normal_frame_parsed (P : List Nat) (h : P.length ≤ 16383) :
    frameType (wgToTunSafeNormal P) = tunSafeNormalType ∧
      frameSize (wgToTunSafeNormal P) = P.length := by
  have hp := parse_normal_header P.length h
  rw [Prod.ext_iff] at hp
  simp only [parseTunSafeHeader] at hp
  refine ⟨?_, ?_⟩
  · simpa [frameType, wgToTunSafeNormal] using hp.1
  · simpa [frameSize, frameType, wgToTunSafeNormal, parseTunSafeHeader] using hp.2

/-- The header bytes written by `wgToTunSafeData` parse back to the
Data-elided type and the elided payload length, for payloads within the
14-bit field. -/
theorem data_frame_parsed (P : List Nat) (h : P.length - wgDataHeaderSize ≤ 16383) :
    frameType (wgToTunSafeData P) = tunSafeDataType ∧
      frameSize (wgToTunSafeData P) = P.length - wgDataHeaderSize := by
  have hp := parse_data_header (P.length - wgDataHeaderSize) h
  rw [Prod.ext_iff] at hp
  simp only [parseTunSafeHeader] at hp
  refine ⟨?_, ?_⟩
  · simpa [frameType, wgToTunSafeData] using hp.1
  · simpa [frameSize, frameType, wgToTunSafeData, parseTunSafeHeader] using hp.2

/-- Decoding a Normal frame built by `wgToTunSafeNormal`: the receive buffer
is the payload verbatim, with offset `0`. -/
theorem decodeFrameFull_normal (r : TunSafeData) (P : List Nat)
    (h : P.length ≤ 16383) :
    decodeFrameFull r (wgToTunSafeNormal P) = some (tunSafeNormalType, P) := by
  have hp := parse_normal_header P.length h
  simp [decodeFrameFull, wgToTunSafeNormal, hp, prepareWgPacket, tunSafeNormalType]

/-- Decoding a Data-elided frame built by `wgToTunSafeData`: the receive
buffer starts with the reconstructed 16-byte header
`wgRecvPrefix ‖ wgRecvCount (LE u64)` and continues with the frame payload. -/
theorem decodeFrameFull_data (r : TunSafeData) (P : List Nat)
    (h : P.length - wgDataHeaderSize ≤ 16383)
    (h8 : r.wgRecvPrefix.length = 8) :
    decodeFrameFull r (wgToTunSafeData P) =
      some (tunSafeDataType,
        r.wgRecvPrefix ++ leBytes 8 r.wgRecvCount ++ P.drop wgDataHeaderSize) := by
  have hp := parse_data_header (P.length - wgDataHeaderSize) h
  have hhdrlen : (r.wgRecvPrefix ++ leBytes 8 r.wgRecvCount).length = 16 := by
    simp [h8, leBytes_length]
  have hbody : (P.drop wgDataHeaderSize).length = P.length - wgDataHeaderSize := by
    simp [wgDataHeaderSize]
  have hprep : prepareWgPacket r tunSafeDataType (P.length - wgDataHeaderSize) =
      some ((r.wgRecvPrefix ++ leBytes 8 r.wgRecvCount) ++
        List.replicate (P.length - wgDataHeaderSize) 0, wgDataHeaderSize) := by
    unfold prepareWgPacket writeWgHeader goCopy
    rw [if_neg (by decide), if_pos rfl, hhdrlen]
    have hm : min (List.replicate (P.length - wgDataHeaderSize + wgDataHeaderSize)
        (0 : Nat)).length 16 = 16 := by
      simp [wgDataHeaderSize]
    rw [hm]
    have ht : (r.wgRecvPrefix ++ leBytes 8 r.wgRecvCount).take 16 =
        r.wgRecvPrefix ++ leBytes 8 r.wgRecvCount := by
      rw [← hhdrlen]; exact List.take_length _
    have hd : (List.replicate (P.length - wgDataHeaderSize + wgDataHeaderSize)
        (0 : Nat)).drop 16 = List.replicate (P.length - wgDataHeaderSize) 0 := by
      simp [wgDataHeaderSize]
    rw [ht, hd]
  have htake : ((r.wgRecvPrefix ++ leBytes 8 r.wgRecvCount) ++
      List.replicate (P.length - wgDataHeaderSize) 0).take wgDataHeaderSize =
      r.wgRecvPrefix ++ leBytes 8 r.wgRecvCount := List.take_left' hhdrlen
  have hframe : wgToTunSafeData P =
      (((0b10 <<< 6) ||| ((P.length - wgDataHeaderSize) >>> 8)) % 256) ::
        ((P.length - wgDataHeaderSize) &&& 0xff) :: P.drop wgDataHeaderSize := rfl
  rw [hframe]
  simp only [decodeFrameFull, hp, hprep, hbody, if_pos rfl]
  rw [htake]
  simp

/-- A 16-byte packet that begins with eight zero bytes (not the Data tag) and
whose counter field is 1: on a fresh codec it satisfies the elision branch. -/
def cexPacket : List Nat := [0, 0, 0, 0, 0, 0, 0, 0, 1, 0, 0, 0, 0, 0, 0, 0]

/-- C1 (amended): for datagrams within the 14-bit length field, the encoder
emits a Data-elided frame iff the packet is at least 16 bytes long, its first
8 bytes equal `wgSendPrefix`, and its counter field equals `wgSendCount + 1`;
the Data tag is not consulted. Every other such datagram is Normal-framed. -/
theorem C1_elision_characterisation (t : TunSafeData) (P : List Nat)
    (hlen : P.length ≤ 16383) :
    (frameType (wgToTunSafe t P).1 = tunSafeDataType ↔ elideCond t P) ∧
    (¬ elideCond t P → frameType (wgToTunSafe t P).1 = tunSafeNormalType) := by
  have hn := (normal_frame_parsed P hlen).1
  have hd := (data_frame_parsed P (by omega)).1
  rw [wgToTunSafe_eq]
  by_cases hc : elideCond t P
  · simp [hc, hd]
  · by_cases hpr : primeCond t P <;>
      simp [hc, hpr, hn, tunSafeNormalType, tunSafeDataType]

/-- C1, witness. -/
theorem C1_witness :
    (frameType (wgToTunSafe NewTunSafeData [1, 2, 3]).1 = tunSafeDataType ↔
      elideCond NewTunSafeData [1, 2, 3]) ∧
    (¬ elideCond NewTunSafeData [1, 2, 3] →
      frameType (wgToTunSafe NewTunSafeData [1, 2, 3]).1 = tunSafeNormalType) :=
  C1_elision_characterisation NewTunSafeData [1, 2, 3] (by decide)

/-- C1, counterexample to the claim as stated: a fresh codec elides a 16-byte
datagram of eight zero bytes and counter 1, although it does not start with
the Data tag `04 00 00 00` — the claimed "Non-data bypass" fails. -/
theorem C1_cex :
    goHasPrefix cexPacket wgDataPrefix = false ∧
    frameType (wgToTunSafe NewTunSafeData cexPacket).1 = tunSafeDataType := by
  decide

/-- C2 (amended): for `P` within the 14-bit length field that does not meet
the fresh-state elision condition (at least 16 bytes, eight zero lead bytes,
counter field 1), encoding on a fresh codec yields a Normal frame with length
field `len P`, and decoding it returns `P` verbatim. -/
theorem C2_normal_roundtrip (P : List Nat) (hlen : P.length ≤ 16383)
    (hne : ¬ elideCond NewTunSafeData P) :
    frameType (wgToTunSafe NewTunSafeData P).1 = tunSafeNormalType ∧
    frameSize (wgToTunSafe NewTunSafeData P).1 = P.length ∧
    decodeFrame NewTunSafeData (wgToTunSafe NewTunSafeData P).1 = some P := by
  have hn := normal_frame_parsed P hlen
  have hdec := decodeFrameFull_normal NewTunSafeData P hlen
  rw [wgToTunSafe_eq]
  by_cases hpr : primeCond NewTunSafeData P <;>
    simp [hne, hpr, hn.1, hn.2, decodeFrame, hdec]

/-- C2, witness. -/
theorem C2_witness :
    frameType (wgToTunSafe NewTunSafeData [4, 0, 0, 0]).1 = tunSafeNormalType ∧
    frameSize (wgToTunSafe NewTunSafeData [4, 0, 0, 0]).1 = 4 ∧
    decodeFrame NewTunSafeData (wgToTunSafe NewTunSafeData [4, 0, 0, 0]).1 =
      some [4, 0, 0, 0] :=
  C2_normal_roundtrip [4, 0, 0, 0] (by decide) (by decide)

/-- C2, counterexample to the claim as stated: `cexPacket` is at most 16383
bytes long, yet a fresh codec emits a non-Normal frame for it and the decode
of that frame is not `cexPacket`. -/
theorem C2_cex :
    cexPacket.length ≤ 16383 ∧
    frameType (wgToTunSafe NewTunSafeData cexPacket).1 ≠ tunSafeNormalType ∧
    decodeFrame NewTunSafeData (wgToTunSafe NewTunSafeData cexPacket).1 ≠
      some cexPacket := by
  decide

/-- C3 (amended): for a byte datagram `P` of at least 16 bytes whose elided
body fits the 14-bit length field, with head equal to `wgSendPrefix` and
counter field equal to `wgSendCount + 1`: the encoder emits a Data-elided
frame with length field `len P - 16` and increments `wgSendCount`; a receiver
whose `wgRecvPrefix`/`wgRecvCount` mirror the packet header reconstructs `P`
byte-identically. -/
theorem C3_elision_law (t r : TunSafeData) (P : List Nat)
    (h16 : wgDataHeaderSize ≤ P.length)
    (hmax : P.length - wgDataHeaderSize ≤ 16383)
    (hbytes : ∀ b ∈ P, b < 256)
    (hpref : P.take wgDataPrefixSize = t.wgSendPrefix)
    (hcnt : leVal ((P.take wgDataHeaderSize).drop wgDataPrefixSize) =
      (t.wgSendCount + 1) % U64)
    (hr1 : r.wgRecvPrefix = P.take wgDataPrefixSize)
    (hr2 : r.wgRecvCount = leVal ((P.take wgDataHeaderSize).drop wgDataPrefixSize)) :
    frameType (wgToTunSafe t P).1 = tunSafeDataType ∧
    frameSize (wgToTunSafe t P).1 = P.length - wgDataHeaderSize ∧
    (wgToTunSafe t P).2.wgSendCount = (t.wgSendCount + 1) % U64 ∧
    decodeFrame r (wgToTunSafe t P).1 = some P := by
  have hel : elideCond t P := ⟨h16, hpref, hcnt⟩
  have hd := data_frame_parsed P hmax
  have h8 : r.wgRecvPrefix.length = 8 := by
    have h16' : 16 ≤ P.length := h16
    rw [hr1, List.length_take]
    simp only [wgDataPrefixSize]
    omega
  have hdec := decodeFrameFull_data r P hmax h8
  have hmid : leBytes 8 r.wgRecvCount =
      (P.take wgDataHeaderSize).drop wgDataPrefixSize := by
    rw [hr2]
    have hlenmid : ((P.take wgDataHeaderSize).drop wgDataPrefixSize).length = 8 := by
      have h16' : 16 ≤ P.length := h16
      simp only [List.length_drop, List.length_take, wgDataHeaderSize,
        wgDataPrefixSize]
      omega
    have hb : ∀ b ∈ (P.take wgDataHeaderSize).drop wgDataPrefixSize, b < 256 :=
      fun b hbm => hbytes b (List.take_subset _ _ (List.drop_subset _ _ hbm))
    rw [← hlenmid]
    exact leBytes_leVal _ hb
  have h1 : (P.take wgDataHeaderSize).drop wgDataPrefixSize =
      (P.drop 8).take 8 := by
    simp only [wgDataHeaderSize, wgDataPrefixSize]
    rw [List.drop_take]
  have hsplit : r.wgRecvPrefix ++ leBytes 8 r.wgRecvCount ++
      P.drop wgDataHeaderSize = P := by
    rw [hr1, hmid, h1]
    simp only [wgDataPrefixSize, wgDataHeaderSize]
    calc P.take 8 ++ (P.drop 8).take 8 ++ P.drop 16
        = P.take (8 + 8) ++ P.drop 16 := by rw [List.take_add]
      _ = P := by norm_num [List.take_append_drop]
  rw [wgToTunSafe_eq, if_pos hel]
  refine ⟨hd.1, hd.2, rfl, ?_⟩
  simp [decodeFrame, hdec, hsplit]

/-- A primed sender, its mirror receiver, and the next in-order data packet. -/
def elisionSender : TunSafeData :=
  ⟨[4, 0, 0, 0, 9, 9, 9, 9], 1, List.replicate 8 0, 0⟩

def elisionReceiver : TunSafeData :=
  ⟨List.replicate 8 0, 0, [4, 0, 0, 0, 9, 9, 9, 9], 2⟩

def elisionPacket : List Nat :=
  [4, 0, 0, 0, 9, 9, 9, 9, 2, 0, 0, 0, 0, 0, 0, 0, 77, 88]

/-- C3, witness. -/
theorem C3_witness :
    frameType (wgToTunSafe elisionSender elisionPacket).1 = tunSafeDataType ∧
    frameSize (wgToTunSafe elisionSender elisionPacket).1 =
      elisionPacket.length - wgDataHeaderSize ∧
    (wgToTunSafe elisionSender elisionPacket).2.wgSendCount =
      (elisionSender.wgSendCount + 1) % U64 ∧
    decodeFrame elisionReceiver (wgToTunSafe elisionSender elisionPacket).1 =
      some elisionPacket :=
  C3_elision_law elisionSender elisionReceiver elisionPacket (by decide)
    (by decide) (by decide) (by decide) (by decide) (by decide) (by decide)

/-- Body that overflows the 14-bit length field after elision. -/
def oversizeBody : List Nat := List.replicate 16384 0

/-- A 16400-byte packet in the elision branch produces a frame whose first
byte is `uint8(0b10<<6 | 16384>>8) = 0b11000000`: its type bits parse as 3. -/
theorem oversize_frame_type (t : TunSafeData) (P : List Nat)
    (hel : elideCond t P) (hlen : P.length = 16400) :
    frameType (wgToTunSafe t P).1 = 3 := by
  rw [wgToTunSafe_eq, if_pos hel]
  show frameType (wgToTunSafeData P) = 3
  simp only [wgToTunSafeData, frameType, List.headD_cons]
  rw [hlen]
  decide

def oversizeHead : List Nat := [4, 0, 0, 0, 0, 0, 0, 0, 1, 0, 0, 0, 0, 0, 0, 0]

def oversizePacket : List Nat := oversizeHead ++ oversizeBody

def oversizeSender : TunSafeData :=
  ⟨[4, 0, 0, 0, 0, 0, 0, 0], 0, List.replicate 8 0, 0⟩

theorem oversizeBody_length : oversizeBody.length = 16384 := by
  rw [oversizeBody]; exact List.length_replicate _ _

theorem oversizePacket_length : oversizePacket.length = 16400 := by
  rw [oversizePacket, List.length_append, oversizeBody_length]; rfl

theorem oversizePacket_elides : elideCond oversizeSender oversizePacket := by
  refine ⟨by rw [oversizePacket_length]; decide, ?_, ?_⟩
  · rw [oversizePacket, List.take_append_of_le_length (by decide)]
    decide
  · rw [oversizePacket,
      show (oversizeHead ++ oversizeBody).take wgDataHeaderSize = oversizeHead from
        List.take_left' (by decide)]
    decide

/-- C3, counterexample to the claim as stated: a 16400-byte datagram meets
all the stated elision preconditions, yet the emitted frame's type bits are
not the Data-elided type (the 14-bit length field overflows into them). -/
theorem C3_cex :
    wgDataHeaderSize ≤ oversizePacket.length ∧
    oversizePacket.take wgDataPrefixSize = oversizeSender.wgSendPrefix ∧
    leVal ((oversizePacket.take wgDataHeaderSize).drop wgDataPrefixSize) =
      (oversizeSender.wgSendCount + 1) % U64 ∧
    frameType (wgToTunSafe oversizeSender oversizePacket).1 ≠ tunSafeDataType := by
  obtain ⟨he1, he2, he3⟩ := oversizePacket_elides
  refine ⟨he1, he2, he3, ?_⟩
  rw [oversize_frame_type oversizeSender oversizePacket
    ⟨he1, he2, he3⟩ oversizePacket_length]
  decide

def oversizeHead5 : List Nat := [4, 0, 0, 0, 1, 1, 1, 1, 1, 0, 0, 0, 0, 0, 0, 0]

def oversizePacket5 : List Nat := oversizeHead5 ++ oversizeBody

def oversizeSender5 : TunSafeData :=
  ⟨[4, 0, 0, 0, 1, 1, 1, 1], 0, List.replicate 8 0, 0⟩

theorem oversizePacket5_length : oversizePacket5.length = 16400 := by
  rw [oversizePacket5, List.length_append, oversizeBody_length]; rfl

theorem oversizePacket5_elides : elideCond oversizeSender5 oversizePacket5 := by
  refine ⟨by rw [oversizePacket5_length]; decide, ?_, ?_⟩
  · rw [oversizePacket5, List.take_append_of_le_length (by decide)]
    decide
  · rw [oversizePacket5,
      show (oversizeHead5 ++ oversizeBody).take wgDataHeaderSize = oversizeHead5 from
        List.take_left' (by decide)]
    decide

/-- C5: a Data-tagged datagram that satisfies the elision preconditions but
whose elided body (16384 bytes) exceeds the 14-bit maximum is NOT sent as a
Normal frame: the code takes the elision branch anyway and emits a frame whose
type bits read 3 (neither Normal nor Data-elided) — the required size check is
missing. -/
theorem C5_oversize_not_normal :
    goHasPrefix oversizePacket5 wgDataPrefix = true ∧
    elideCond oversizeSender5 oversizePacket5 ∧
    16383 < oversizePacket5.length - wgDataHeaderSize ∧
    frameType (wgToTunSafe oversizeSender5 oversizePacket5).1 ≠ tunSafeNormalType ∧
    frameType (wgToTunSafe oversizeSender5 oversizePacket5).1 ≠ tunSafeDataType := by
  have hty := oversize_frame_type oversizeSender5 oversizePacket5
    oversizePacket5_elides oversizePacket5_length
  refine ⟨?_, oversizePacket5_elides, ?_, ?_, ?_⟩
  · rw [oversizePacket5]
    show ((oversizeHead5 ++ oversizeBody).take 4 == wgDataPrefix) = true
    rw [List.take_append_of_le_length (by decide)]
    decide
  · rw [oversizePacket5_length]; decide
  · rw [hty]; decide
  · rw [hty]; decide

/-- Folding the encoder over a packet sequence (codec state after the sends). -/
def encodeAll (t : TunSafeData) : List (List Nat) → TunSafeData
  | [] => t
  | p :: ps => encodeAll (wgToTunSafe t p).2 ps

/-- Number of Data-elided frames the encoder emits along a packet sequence. -/
def elidedCount (t : TunSafeData) : List (List Nat) → Nat
  | [] => 0
  | p :: ps => (if elideCond t p then 1 else 0) + elidedCount (wgToTunSafe t p).2 ps

/-- No packet of the sequence takes the encoder's re-priming branch. -/
def noPrime (t : TunSafeData) : List (List Nat) → Prop
  | [] => True
  | p :: ps => ¬ primeCond t p ∧ noPrime (wgToTunSafe t p).2 ps

instance noPrimeDec : (t : TunSafeData) → (ps : List (List Nat)) →
    Decidable (noPrime t ps)
  | _, [] => .isTrue trivial
  | t, p :: ps =>
    letI := noPrimeDec (wgToTunSafe t p).2 ps
    inferInstanceAs (Decidable (_ ∧ _))

theorem U64_pos : 0 < U64 := by unfold U64; positivity

/-- In the absence of re-priming, every encode adds exactly the elision flag
to `wgSendCount` (as a `uint64`). -/
theorem encodeAll_sendCount (ps : List (List Nat)) :
    ∀ t : TunSafeData, t.wgSendCount < U64 → noPrime t ps →
      (encodeAll t ps).wgSendCount = (t.wgSendCount + elidedCount t ps) % U64 := by
  induction ps with
  | nil =>
    intro t hlt _
    simp [encodeAll, elidedCount, Nat.mod_eq_of_lt hlt]
  | cons p ps ih =>
    intro t hlt hnp
    obtain ⟨hnpr, hrest⟩ := hnp
    by_cases hel : elideCond t p
    · have hstep : (wgToTunSafe t p).2 =
          { t with wgSendCount := (t.wgSendCount + 1) % U64 } := by
        rw [wgToTunSafe_eq, if_pos hel]
      have h2 : ((wgToTunSafe t p).2).wgSendCount < U64 := by
        rw [hstep]; exact Nat.mod_lt _ U64_pos
      have hcnt : elidedCount t (p :: ps) =
          1 + elidedCount (wgToTunSafe t p).2 ps := by
        simp [elidedCount, hel]
      calc (encodeAll t (p :: ps)).wgSendCount
          = (encodeAll (wgToTunSafe t p).2 ps).wgSendCount := rfl
        _ = ((wgToTunSafe t p).2.wgSendCount +
              elidedCount (wgToTunSafe t p).2 ps) % U64 := ih _ h2 hrest
        _ = ((t.wgSendCount + 1) % U64 +
              elidedCount (wgToTunSafe t p).2 ps) % U64 := by rw [hstep]
        _ = (t.wgSendCount + elidedCount t (p :: ps)) % U64 := by
              rw [Nat.mod_add_mod, hcnt, Nat.add_assoc]
    · have hstep : (wgToTunSafe t p).2 = t := by
        rw [wgToTunSafe_eq, if_neg hel, if_neg hnpr]
      have hcnt : elidedCount t (p :: ps) =
          elidedCount (wgToTunSafe t p).2 ps := by
        simp [elidedCount, hel]
      have h2 : ((wgToTunSafe t p).2).wgSendCount < U64 := by
        rw [hstep]; exact hlt
      calc (encodeAll t (p :: ps)).wgSendCount
          = (encodeAll (wgToTunSafe t p).2 ps).wgSendCount := rfl
        _ = ((wgToTunSafe t p).2.wgSendCount +
              elidedCount (wgToTunSafe t p).2 ps) % U64 := ih _ h2 hrest
        _ = (t.wgSendCount + elidedCount t (p :: ps)) % U64 := by
              rw [hcnt, hstep]

/-- True exactly when `onRecvPacket` would learn new receive state from the
frame: a Normal frame whose payload starts with the WireGuard Data tag. -/
def frameLearns (frame : List Nat) : Bool :=
  match frame with
  | b0 :: _ :: body => (b0 >>> 6 == tunSafeNormalType) && goHasPrefix body wgDataPrefix
  | _ => false

/-- Folding the receive path over whole frames; `none` as soon as a frame
fails to decode. -/
def recvAll (t : TunSafeData) : List (List Nat) → Option TunSafeData
  | [] => some t
  | f :: fs =>
    match recvFrame t f with
    | some t1 => recvAll t1 fs
    | none => none

theorem onRecvPacket_count (t : TunSafeData) (ty : Nat) (pkt : List Nat)
    (hno : ¬ (ty = tunSafeNormalType ∧ goHasPrefix pkt wgDataPrefix = true)) :
    (onRecvPacket t ty pkt).wgRecvCount = (t.wgRecvCount + 1) % U64 := by
  simp only [onRecvPacket, if_neg hno]

/-- A frame that decodes without learning bumps `wgRecvCount` by exactly 1. -/
theorem recvFrame_count (t : TunSafeData) (f : List Nat) (t1 : TunSafeData)
    (hnl : frameLearns f = false) (h : recvFrame t f = some t1) :
    t1.wgRecvCount = (t.wgRecvCount + 1) % U64 := by
  match f with
  | [] => simp [recvFrame, decodeFrameFull] at h
  | [b0] => simp [recvFrame, decodeFrameFull] at h
  | b0 :: b1 :: body =>
    by_cases h0 : b0 >>> 6 = tunSafeNormalType
    · have hprep : prepareWgPacket t (b0 >>> 6) (((b0 &&& 63) <<< 8) ||| b1) =
          some (List.replicate (((b0 &&& 63) <<< 8) ||| b1) 0, 0) := by
        unfold prepareWgPacket
        rw [if_pos h0]
      have hpf : goHasPrefix body wgDataPrefix = false := by
        simp [frameLearns, h0] at hnl
        exact hnl
      by_cases hsz : body.length = ((b0 &&& 63) <<< 8) ||| b1
      · have hdec : decodeFrameFull t (b0 :: b1 :: body) = some (b0 >>> 6, body) := by
          simp [decodeFrameFull, parseTunSafeHeader, hprep, hsz]
        rw [recvFrame, hdec] at h
        simp only [Option.map_some'] at h
        have ht1 := Option.some.inj h
        rw [← ht1]
        exact onRecvPacket_count t (b0 >>> 6) body (by simp [hpf])
      · have hdec : decodeFrameFull t (b0 :: b1 :: body) = none := by
          simp [decodeFrameFull, parseTunSafeHeader, hprep, hsz]
        rw [recvFrame, hdec] at h
        simp at h
    · by_cases h2 : b0 >>> 6 = tunSafeDataType
      · have hprep : prepareWgPacket t (b0 >>> 6) (((b0 &&& 63) <<< 8) ||| b1) =
            some (writeWgHeader t
              (List.replicate ((((b0 &&& 63) <<< 8) ||| b1) + wgDataHeaderSize) 0),
              wgDataHeaderSize) := by
          unfold prepareWgPacket
          rw [if_neg h0, if_pos h2]
        by_cases hsz : body.length = ((b0 &&& 63) <<< 8) ||| b1
        · have hdec : decodeFrameFull t (b0 :: b1 :: body) =
              some (b0 >>> 6, (writeWgHeader t
                (List.replicate ((((b0 &&& 63) <<< 8) ||| b1) + wgDataHeaderSize)
                  0)).take wgDataHeaderSize ++ body) := by
            simp [decodeFrameFull, parseTunSafeHeader, hprep, hsz]
          rw [recvFrame, hdec] at h
          simp only [Option.map_some'] at h
          have ht1 := Option.some.inj h
          rw [← ht1]
          exact onRecvPacket_count t (b0 >>> 6) _ (fun hc => h0 hc.1)
        · have hdec : decodeFrameFull t (b0 :: b1 :: body) = none := by
            simp [decodeFrameFull, parseTunSafeHeader, hprep, hsz]
          rw [recvFrame, hdec] at h
          simp at h
      · have hprep : prepareWgPacket t (b0 >>> 6) (((b0 &&& 63) <<< 8) ||| b1) =
            none := by
          unfold prepareWgPacket
          rw [if_neg h0, if_neg h2]
        have hdec : decodeFrameFull t (b0 :: b1 :: body) = none := by
          simp [decodeFrameFull, parseTunSafeHeader, hprep]
        rw [recvFrame, hdec] at h
        simp at h

/-- Frames that never learn receive state make `wgRecvCount` count frames. -/
theorem recvAll_count (fs : List (List Nat)) :
    ∀ t t' : TunSafeData, t.wgRecvCount < U64 →
      (∀ f ∈ fs, frameLearns f = false) → recvAll t fs = some t' →
      t'.wgRecvCount = (t.wgRecvCount + fs.length) % U64 := by
  induction fs with
  | nil =>
    intro t t' hlt _ h
    simp only [recvAll, Option.some_inj] at h
    rw [← h]
    simp [Nat.mod_eq_of_lt hlt]
  | cons f fs ih =>
    intro t t' hlt hnl h
    simp only [recvAll] at h
    cases hrf : recvFrame t f with
    | none => rw [hrf] at h; simp at h
    | some t1 =>
      rw [hrf] at h
      have hc := recvFrame_count t f t1 (hnl f (by simp)) hrf
      have h1lt : t1.wgRecvCount < U64 := by
        rw [hc]; exact Nat.mod_lt _ U64_pos
      have hrest := ih t1 t' h1lt (fun g hg => hnl g (by simp [hg])) h
      rw [hrest, hc, Nat.mod_add_mod, List.length_cons]
      congr 1
      omega

/-- C4 (amended): starting from a fresh codec, as long as no encode takes the
re-priming branch, `wgSendCount` equals the number of Data-elided frames
emitted (mod `2^64`); and as long as no received frame is a Normal frame
carrying a Data-tagged packet, `wgRecvCount` equals the number of frames
received (mod `2^64`). -/
theorem C4_counter_accounting (ps fs : List (List Nat)) (t' : TunSafeData)
    (hnp : noPrime NewTunSafeData ps)
    (hnl : ∀ f ∈ fs, frameLearns f = false)
    (hr : recvAll NewTunSafeData fs = some t') :
    (encodeAll NewTunSafeData ps).wgSendCount =
      elidedCount NewTunSafeData ps % U64 ∧
    t'.wgRecvCount = fs.length % U64 := by
  constructor
  · have h0 : NewTunSafeData.wgSendCount < U64 := by
      simp [NewTunSafeData, U64_pos]
    have := encodeAll_sendCount ps NewTunSafeData h0 hnp
    simpa [NewTunSafeData] using this
  · have h0 : NewTunSafeData.wgRecvCount < U64 := by
      simp [NewTunSafeData, U64_pos]
    have := recvAll_count fs NewTunSafeData t' h0 hnl hr
    simpa [NewTunSafeData] using this

/-- Two in-order data packets that elide from the fresh state, and a Normal
frame carrying a non-Data payload. -/
def elisionRun : List (List Nat) :=
  [[0, 0, 0, 0, 0, 0, 0, 0, 1, 0, 0, 0, 0, 0, 0, 0],
   [0, 0, 0, 0, 0, 0, 0, 0, 2, 0, 0, 0, 0, 0, 0, 0]]

def plainFrames : List (List Nat) := [[0, 3, 1, 2, 3]]

/-- C4, witness. -/
theorem C4_witness :
    (encodeAll NewTunSafeData elisionRun).wgSendCount =
      elidedCount NewTunSafeData elisionRun % U64 ∧
    (⟨List.replicate 8 0, 0, List.replicate 8 0, 1⟩ : TunSafeData).wgRecvCount =
      plainFrames.length % U64 :=
  C4_counter_accounting elisionRun plainFrames
    ⟨List.replicate 8 0, 0, List.replicate 8 0, 1⟩
    (by decide) (by decide) (by decide)

/-- A Data-tagged datagram with counter 5, not in sequence: encoding it from
the fresh state primes the codec instead of eliding. -/
def primingRun : List (List Nat) :=
  [[4, 0, 0, 0, 0, 0, 0, 0, 5, 0, 0, 0, 0, 0, 0, 0]]

/-- C4, counterexample to the claim as stated: after this single encode no
Data-elided frame was emitted, yet `wgSendCount` is 5 (the re-priming
assignment copies the packet's counter). -/
theorem C4_cex :
    elidedCount NewTunSafeData primingRun = 0 ∧
    (encodeAll NewTunSafeData primingRun).wgSendCount = 5 := by
  decide

end WgTcp

namespace WgSup

/-- Earliest-permitted retry iteration: each step calls `shouldRestart` at the
first instant after `lastRestart + nextRestartDelay`. -/
def retrySoonest (m : ManagerState) : Nat → ManagerState
  | 0 => m
  | k + 1 =>
    retrySoonest (shouldRestart m (m.lastRestart + m.nextRestartDelay + 1)).2 k

theorem retrySoonest_delay (k : Nat) :
    ∀ m : ManagerState, m.nextRestartDelay ≤ maxRestartDelay →
      (retrySoonest m k).nextRestartDelay =
        min (m.nextRestartDelay * 2 ^ k) maxRestartDelay := by
  induction k with
  | zero =>
    intro m hd
    simp only [retrySoonest, Nat.pow_zero, Nat.mul_one]
    omega
  | succ k ih =>
    intro m hd
    have hmax : maxRestartDelay < resetRestartDelay := by
      norm_num [maxRestartDelay, resetRestartDelay]
    have hperm : m.lastRestart + m.nextRestartDelay <
        m.lastRestart + m.nextRestartDelay + 1 := by omega
    have hnoreset : ¬ (m.lastRestart + resetRestartDelay <
        m.lastRestart + m.nextRestartDelay + 1) := by omega
    have hstep : (shouldRestart m (m.lastRestart + m.nextRestartDelay + 1)).2 =
        { m with
          nextRestartDelay := min (2 * m.nextRestartDelay) maxRestartDelay
          lastRestart := m.lastRestart + m.nextRestartDelay + 1 } := by
      unfold shouldRestart
      rw [if_pos hperm, if_neg hnoreset]
    show (retrySoonest (shouldRestart m (m.lastRestart + m.nextRestartDelay + 1)).2
        k).nextRestartDelay = _
    rw [hstep, ih _ (by simp [Nat.min_le_right])]
    show min (min (2 * m.nextRestartDelay) maxRestartDelay * 2 ^ k)
        maxRestartDelay = min (m.nextRestartDelay * 2 ^ (k + 1)) maxRestartDelay
    rcases Nat.le_total (2 * m.nextRestartDelay) maxRestartDelay with hle | hle
    · rw [Nat.min_eq_left hle]
      congr 1
      rw [Nat.pow_succ]
      ring
    · rw [Nat.min_eq_right hle]
      have h1 : min (maxRestartDelay * 2 ^ k) maxRestartDelay = maxRestartDelay := by
        have : maxRestartDelay ≤ maxRestartDelay * 2 ^ k :=
          Nat.le_mul_of_pos_right _ (Nat.pos_pow_of_pos k (by norm_num))
        omega
      have h2 : maxRestartDelay ≤ m.nextRestartDelay * 2 ^ (k + 1) := by
        have h2k : 2 ≤ 2 ^ (k + 1) := by
          calc 2 = 2 ^ 1 := by norm_num
            _ ≤ 2 ^ (k + 1) := Nat.pow_le_pow_right (by norm_num) (by omega)
        calc maxRestartDelay ≤ 2 * m.nextRestartDelay := hle
          _ = m.nextRestartDelay * 2 := by ring
          _ ≤ m.nextRestartDelay * 2 ^ (k + 1) :=
            Nat.mul_le_mul_left _ h2k
      omega

/-- C7 (amended): `shouldRestart` returns true iff `now` is strictly after
`lastRestart + nextRestartDelay`; when it does, it stamps `lastRestart := now`
and sets the delay to `initialRestartDelay` iff strictly more than
`resetRestartDelay` elapsed, else to `min (2 * delay) maxRestartDelay`;
earliest-permitted retries from the initial delay see 4s, 8s, 16s, 32s, 32s, …;
a second call at the same instant returns false; and after STRICTLY more than
10 minutes without a restart the next call is permitted and resets the delay
to 4s. -/
theorem C7_restart_policy (m : ManagerState) (now : Nat) (k : Nat) :
    ((shouldRestart m now).1 = true ↔ m.lastRestart + m.nextRestartDelay < now) ∧
    ((shouldRestart m now).1 = true →
      (shouldRestart m now).2.lastRestart = now ∧
      (shouldRestart m now).2.nextRestartDelay =
        (if m.lastRestart + resetRestartDelay < now then initialRestartDelay
          else min (2 * m.nextRestartDelay) maxRestartDelay)) ∧
    ((shouldRestart m now).1 = true →
      (shouldRestart (shouldRestart m now).2 now).1 = false) ∧
    (m.nextRestartDelay = initialRestartDelay →
      (retrySoonest m k).nextRestartDelay =
        min (initialRestartDelay * 2 ^ k) maxRestartDelay) ∧
    (m.nextRestartDelay ≤ resetRestartDelay →
      m.lastRestart + resetRestartDelay < now →
      (shouldRestart m now).1 = true ∧
      (shouldRestart m now).2.nextRestartDelay = initialRestartDelay) := by
  have hfalse : ∀ m' : ManagerState,
      ¬ (m'.lastRestart + m'.nextRestartDelay < now) →
      (shouldRestart m' now).1 = false := by
    intro m' hno
    unfold shouldRestart
    rw [if_neg hno]
  have hiff : (shouldRestart m now).1 = true ↔
      m.lastRestart + m.nextRestartDelay < now := by
    unfold shouldRestart
    by_cases hp : m.lastRestart + m.nextRestartDelay < now
    · simp [hp]
    · simp [hp]
  refine ⟨hiff, ?_, ?_, ?_, ?_⟩
  · intro hr
    have hp := hiff.mp hr
    unfold shouldRestart
    rw [if_pos hp]
    exact ⟨rfl, rfl⟩
  · intro hr
    have hp := hiff.mp hr
    have hlast : (shouldRestart m now).2.lastRestart = now := by
      unfold shouldRestart
      rw [if_pos hp]
    exact hfalse _ (by rw [hlast]; omega)
  · intro hd
    rw [← hd]
    exact retrySoonest_delay k m
      (by rw [hd]; norm_num [initialRestartDelay, maxRestartDelay])
  · intro hd hq
    have hp : m.lastRestart + m.nextRestartDelay < now := by
      have : resetRestartDelay ≥ m.nextRestartDelay := hd
      omega
    unfold shouldRestart
    rw [if_pos hp, if_pos hq]
    exact ⟨rfl, rfl⟩

/-- Fresh manager backoff fields (what `NewWireGuardStateManager` sets, with
creation time 0). -/
def freshManager : ManagerState :=
  { isNetAvailable := false
    wasNetAvailable := none
    startedTimestamp := 0
    lastRestart := 0
    nextRestartDelay := initialRestartDelay
    closed := false
    transmission := "tcp" }

/-- C7, witness. -/
theorem C7_witness :
    (shouldRestart freshManager 4000000001).1 = true ∧
    (shouldRestart freshManager 4000000001).2.lastRestart = 4000000001 ∧
    (shouldRestart freshManager 4000000001).2.nextRestartDelay = 8000000000 ∧
    (shouldRestart (shouldRestart freshManager 4000000001).2 4000000001).1 =
      false ∧
    (retrySoonest freshManager 4).nextRestartDelay = 32000000000 ∧
    (shouldRestart freshManager 600000000001).1 = true ∧
    (shouldRestart freshManager 600000000001).2.nextRestartDelay =
      initialRestartDelay := by
  have h := C7_restart_policy freshManager 4000000001 4
  have h' := C7_restart_policy freshManager 600000000001 0
  have hr : (shouldRestart freshManager 4000000001).1 = true :=
    h.1.mpr (by decide)
  have h2 := h.2.1 hr
  have hreset := h'.2.2.2.2 (by decide) (by decide)
  refine ⟨hr, h2.1, ?_, h.2.2.1 hr, ?_, hreset.1, hreset.2⟩
  · rw [h2.2]; decide
  · rw [h.2.2.2.1 rfl]; decide

/-- C7, counterexample to the claim as stated: at exactly 10 minutes after
`lastRestart` (elapsed = resetRestartDelay, hence "≥ 10 min"), the call is
permitted but the delay is doubled to 8 s instead of being reset to 4 s. -/
theorem C7_cex :
    (shouldRestart freshManager (freshManager.lastRestart +
      resetRestartDelay)).1 = true ∧
    (shouldRestart freshManager (freshManager.lastRestart +
      resetRestartDelay)).2.nextRestartDelay ≠ initialRestartDelay := by
  decide

/-- C8: while `isNetAvailable` is false, socket-error and handshake events
leave the supervisor state untouched and produce no state publication and no
device call: the event loop discards them. -/
theorem C8_network_gated (m : ManagerState) (e : Option (List Char))
    (hs : HandshakeState) (now : Nat) (upOk downOk : Bool)
    (hnet : m.isNetAvailable = false) :
    handlerStep m (.socketErr e) now upOk downOk = (m, []) ∧
    handlerStep m (.handshake hs) now upOk downOk = (m, []) := by
  constructor
  · show (if m.isNetAvailable then handleSocketErr m e now else (m, [])) = (m, [])
    rw [hnet]
    rfl
  · show (if m.isNetAvailable then handleHandshakeState m hs now else (m, [])) =
      (m, [])
    rw [hnet]
    rfl

/-- C8, witness: a "broken pipe" socket error and a failed handshake are both
discarded by a fresh (network-unavailable) manager. -/
theorem C8_witness :
    handlerStep freshManager (.socketErr (some "broken pipe".toList))
      4000000001 true true = (freshManager, []) ∧
    handlerStep freshManager (.handshake .HandshakeFail)
      4000000001 true true = (freshManager, []) :=
  C8_network_gated freshManager (some "broken pipe".toList) .HandshakeFail
    4000000001 true true rfl

/-- C9 (amended): draining the state channel after `Close` yields `Disabled`
exactly once; every later `GetState` call returns the sentinel `-1`, which is
not the `Disabled` value. -/
theorem C9_close_semantics (c : StateChan) (hbuf : c.buf = []) :
    GetState (CloseStateChan c) =
      some (WireGuardDisabled, { buf := [], isClosed := true }) ∧
    (∀ c2 : StateChan, c2.buf = [] → c2.isClosed = true →
      GetState c2 = some (-1, c2)) ∧
    (-1 : Int) ≠ WireGuardDisabled := by
  refine ⟨?_, ?_, by decide⟩
  · rw [CloseStateChan, hbuf]
    rfl
  · intro c2 h1 h2
    rw [GetState, h1, h2]
    rfl

/-- C9, witness. -/
theorem C9_witness :
    GetState (CloseStateChan { buf := [], isClosed := false }) =
      some (WireGuardDisabled, { buf := [], isClosed := true }) ∧
    (∀ c2 : StateChan, c2.buf = [] → c2.isClosed = true →
      GetState c2 = some (-1, c2)) ∧
    (-1 : Int) ≠ WireGuardDisabled :=
  C9_close_semantics { buf := [], isClosed := false } rfl

/-- C9, counterexample to the claim as stated: the `GetState` call after the
one that delivered the final `Disabled` returns `-1`, not `Disabled`. -/
theorem C9_cex :
    GetState (CloseStateChan { buf := [], isClosed := false }) =
      some (WireGuardDisabled, { buf := [], isClosed := true }) ∧
    GetState { buf := [], isClosed := true } =
      some (-1, { buf := [], isClosed := true }) ∧
    (-1 : Int) ≠ WireGuardDisabled := by
  decide

end WgSup

namespace WgTcp

/-- `writeWgHeader` on a zeroed buffer of `n + 16` bytes: the 16-byte header
`wgRecvPrefix ‖ wgRecvCount (LE u64)` followed by `n` zero bytes. -/
theorem writeWgHeader_replicate (t : TunSafeData) (n : Nat)
    (h8 : t.wgRecvPrefix.length = 8) :
    writeWgHeader t (List.replicate (n + wgDataHeaderSize) 0) =
      (t.wgRecvPrefix ++ leBytes 8 t.wgRecvCount) ++ List.replicate n 0 := by
  have hhdrlen : (t.wgRecvPrefix ++ leBytes 8 t.wgRecvCount).length = 16 := by
    simp [h8, leBytes_length]
  unfold writeWgHeader goCopy
  rw [hhdrlen]
  have hm : min (List.replicate (n + wgDataHeaderSize) (0 : Nat)).length 16 = 16 := by
    simp [wgDataHeaderSize]
  rw [hm]
  have ht : (t.wgRecvPrefix ++ leBytes 8 t.wgRecvCount).take 16 =
      t.wgRecvPrefix ++ leBytes 8 t.wgRecvCount := by
    rw [← hhdrlen]; exact List.take_length _
  have hd : (List.replicate (n + wgDataHeaderSize) (0 : Nat)).drop 16 =
      List.replicate n 0 := by
    simp [wgDataHeaderSize]
  rw [ht, hd]

/-- C6: `parseTunSafeHeader` returns `(b0 >> 6, ((b0 & 0x3F) << 8) | b1)`;
`prepareWgPacket` returns a `payloadSize`-byte buffer with offset 0 for the
Normal type, a `payloadSize + 16`-byte buffer with offset 16 whose first 16
bytes are `wgRecvPrefix ‖ wgRecvCount (LE u64)` for the Data-elided type, and
the unknown-frame-type error exactly for the other type values. -/
theorem C6_parse_and_prepare (t : TunSafeData) (h8 : t.wgRecvPrefix.length = 8)
    (b0 b1 n : Nat) :
    parseTunSafeHeader b0 b1 = (b0 >>> 6, ((b0 &&& 0x3F) <<< 8) ||| b1) ∧
    prepareWgPacket t tunSafeNormalType n = some (List.replicate n 0, 0) ∧
    (List.replicate n (0 : Nat)).length = n ∧
    (∃ buf, prepareWgPacket t tunSafeDataType n = some (buf, 16) ∧
      buf.length = n + 16 ∧
      buf.take 16 = t.wgRecvPrefix ++ leBytes 8 t.wgRecvCount) ∧
    (∀ ty, prepareWgPacket t ty n = none ↔
      ty ≠ tunSafeNormalType ∧ ty ≠ tunSafeDataType) := by
  have hq : prepareWgPacket t tunSafeDataType n =
      some (writeWgHeader t (List.replicate (n + wgDataHeaderSize) 0),
        wgDataHeaderSize) := by
    unfold prepareWgPacket
    rw [if_neg (by decide), if_pos rfl]
  have hbuf := writeWgHeader_replicate t n h8
  refine ⟨rfl, by unfold prepareWgPacket; rw [if_pos rfl], by simp, ?_, ?_⟩
  · refine ⟨writeWgHeader t (List.replicate (n + wgDataHeaderSize) 0), hq, ?_, ?_⟩
    · rw [hbuf]
      simp [h8, leBytes_length]
      omega
    · rw [hbuf]
      exact List.take_left' (by simp [h8, leBytes_length])
  · intro ty
    by_cases hty0 : ty = tunSafeNormalType
    · simp [prepareWgPacket, hty0]
    · by_cases hty2 : ty = tunSafeDataType
      · simp [prepareWgPacket, hty0, hty2, tunSafeNormalType, tunSafeDataType]
      · simp [prepareWgPacket, hty0, hty2]

/-- C6, witness. -/
theorem C6_witness :
    parseTunSafeHeader 171 205 = (171 >>> 6, ((171 &&& 0x3F) <<< 8) ||| 205) ∧
    prepareWgPacket NewTunSafeData tunSafeNormalType 3 =
      some (List.replicate 3 0, 0) ∧
    (List.replicate 3 (0 : Nat)).length = 3 ∧
    (∃ buf, prepareWgPacket NewTunSafeData tunSafeDataType 3 = some (buf, 16) ∧
      buf.length = 3 + 16 ∧
      buf.take 16 = NewTunSafeData.wgRecvPrefix ++
        leBytes 8 NewTunSafeData.wgRecvCount) ∧
    (∀ ty, prepareWgPacket NewTunSafeData ty 3 = none ↔
      ty ≠ tunSafeNormalType ∧ ty ≠ tunSafeDataType) :=
  C6_parse_and_prepare NewTunSafeData (by decide) 171 205 3

/-- C10: `Send` runs `wgToTunSafe` (and its state mutation) before writing;
a failed write still returns the error but leaves the codec state exactly as
a successful send would. -/
theorem C10_send_state_on_write_failure (ts : TunSafeData) (buff : List Nat) :
    (Send ts buff true true false).1 = (wgToTunSafe ts buff).2 ∧
    (Send ts buff true true false).1 = (Send ts buff true true true).1 ∧
    (Send ts buff true true false).2.1 = some SendErr.writeErr ∧
    (Send ts buff true true false).2.2 = (wgToTunSafe ts buff).1 := by
  refine ⟨rfl, rfl, rfl, rfl⟩

end WgTcp

